import Mathlib

/-
Shallow embedding of the device-authorization and license-issuance core of
src/server.py. Store state (PostgreSQL tables authorized_hwids, pending_hwids,
hwid_mapping) is a record of lists; a connection that can be down models the
store raising on every access (the python code catches those exceptions).
Randomness (uuid4-based short ids) is a candidate stream `gen : Nat → String`,
and the unbounded `while True` collision loop is given explicit fuel: a `none`
result means the loop has not terminated within `fuel` iterations.
-/

namespace ASL

/-- Embeds python whitespace classification used by str.strip(). -/
def isWsChar (c : Char) : Bool :=
  c == ' ' || c == '\t' || c == '\n' || c == '\r' || c == '\x0b' || c == '\x0c'

/-- Embeds python str.strip(). -/
def trimStr (s : String) : String :=
  String.mk (((s.data.dropWhile isWsChar).reverse.dropWhile isWsChar).reverse)

/-- Embeds python str.upper() (ASCII). -/
def upperStr (s : String) : String :=
  String.mk (s.data.map Char.toUpper)

/-- Embeds python str.lower() (ASCII). -/
def lowerStr (s : String) : String :=
  String.mk (s.data.map Char.toLower)

/-- Canonical identity form: request.hwid.strip().upper() in server.py. -/
def canonId (raw : String) : String := upperStr (trimStr raw)

/-- Embeds python s.startswith(p). -/
def strStarts (s p : String) : Bool := p.data.isPrefixOf s.data

/-- A row of table authorized_hwids (created_at is irrelevant to the claims). -/
structure AuthRec where
  hwid : String
  lastValidated : Nat
deriving DecidableEq

/-- The persistent store: `up = false` models the store raising on every
access (caught by the python code's except blocks). -/
structure Conn where
  up : Bool
  authorized : List AuthRec
  pending : List String
  mapping : List (String × String)
deriving DecidableEq

/-- db_get_authorized: returns the hwid column, or [] when the store raises. -/
def db_get_authorized (c : Conn) : List String :=
  if c.up then c.authorized.map (·.hwid) else []

/-- db_get_pending: returns the pending hwids, or [] when the store raises. -/
def db_get_pending (c : Conn) : List String :=
  if c.up then c.pending else []

/-- db_add_authorized: INSERT ... ON CONFLICT (hwid) DO NOTHING. -/
def db_add_authorized (h : String) (now : Nat) (c : Conn) : Conn :=
  if c.up then
    if h ∈ c.authorized.map (·.hwid) then c
    else { c with authorized := c.authorized ++ [⟨h, now⟩] }
  else c

/-- db_remove_authorized: DELETE FROM authorized_hwids WHERE hwid = h. -/
def db_remove_authorized (h : String) (c : Conn) : Conn :=
  if c.up then { c with authorized := c.authorized.filter (fun r => r.hwid != h) } else c

/-- db_add_pending: INSERT ... ON CONFLICT (hwid) DO NOTHING. -/
def db_add_pending (h : String) (c : Conn) : Conn :=
  if c.up then
    if h ∈ c.pending then c else { c with pending := c.pending ++ [h] }
  else c

/-- db_remove_pending: DELETE FROM pending_hwids WHERE hwid = h. -/
def db_remove_pending (h : String) (c : Conn) : Conn :=
  if c.up then { c with pending := c.pending.filter (fun x => x != h) } else c

/-- db_clear_pending: DELETE FROM pending_hwids. -/
def db_clear_pending (c : Conn) : Conn :=
  if c.up then { c with pending := [] } else c

/-- db_update_last_validated: UPDATE authorized_hwids SET last_validated = now
WHERE hwid = h. -/
def db_update_last_validated (h : String) (now : Nat) (c : Conn) : Conn :=
  if c.up then
    { c with authorized :=
        c.authorized.map (fun r => if r.hwid == h then { r with lastValidated := now } else r) }
  else c

/-- Reads the last_validated column for hwid h. -/
def lastValidatedOf (c : Conn) (h : String) : Option Nat :=
  (c.authorized.find? (fun r => r.hwid == h)).map (·.lastValidated)

/-- Is a candidate short id already used (SELECT 1 FROM hwid_mapping WHERE
short_id = sid)? -/
def shortIdUsed (m : List (String × String)) (sid : String) : Bool :=
  (m.find? (fun p => p.1 == sid)).isSome

/-- SELECT short_id FROM hwid_mapping WHERE full_hwid = h. -/
def lookupShortByHwid (m : List (String × String)) (h : String) : Option String :=
  (m.find? (fun p => p.2 == h)).map (·.1)

/-- The `while True` collision-retry loop of get_or_create_short_id, made
total with explicit fuel: `none` means the loop has not found an unused
candidate within `fuel` iterations (i.e. the python loop is still running). -/
def genLoop (gen : Nat → String) (m : List (String × String)) : Nat → Nat → Option String
  | _, 0 => none
  | i, fuel + 1 =>
    if shortIdUsed m (gen i) then genLoop gen m (i + 1) fuel else some (gen i)

/-- get_or_create_short_id: fast path returns the existing mapping; otherwise
candidates gen 0, gen 1, ... are tried until unused, and the winner is
inserted. When the store raises, the except path returns a fresh random id
without inserting anything. -/
def get_or_create_short_id (gen : Nat → String) (fuel : Nat) (h : String) (c : Conn) :
    Option (String × Conn) :=
  if c.up then
    match lookupShortByHwid c.mapping h with
    | some sid => some (sid, c)
    | none =>
      match genLoop gen c.mapping 0 fuel with
      | some sid => some (sid, { c with mapping := c.mapping ++ [(sid, h)] })
      | none => none
  else
    some (gen 0, c)

/-- get_hwid_from_short_id: SELECT full_hwid FROM hwid_mapping WHERE
short_id = sid, returning "" when absent or when the store raises. -/
def get_hwid_from_short_id (sid : String) (c : Conn) : String :=
  if c.up then
    match c.mapping.find? (fun p => p.1 == sid) with
    | some p => p.2
    | none => ""
  else ""

/-- JSON rendering of a python string (identities contain no escapes). -/
def jsonStr (s : String) : String := "\"" ++ s ++ "\""

/-- json.dumps of an object with separators=(",", ":"): stable key order, no
whitespace. -/
def renderJsonObj (fields : List (String × String)) : String :=
  "\x7b" ++ String.intercalate "," (fields.map (fun p => jsonStr p.1 ++ ":" ++ p.2)) ++ "\x7d"

/-- The license payload dict built in activate:
payload = ("hwid": hwid, "valid": True, "exp": "2030-01-01"), values rendered
as raw JSON text. -/
def claimFields (h : String) : List (String × String) :=
  [("hwid", jsonStr h), ("valid", "true"), ("exp", jsonStr "2030-01-01")]

/-- payload_str = json.dumps(payload, separators=(",", ":")). -/
def serializeClaim (h : String) : String := renderJsonObj (claimFields h)

/-- Modelled from the spec: the field names the spec's license-claim wire
format requires (identity, valid, expires_at), for comparison with the
field names the code actually serializes. -/
def specLicenseClaimFields : List String := ["identity", "valid", "expires_at"]

/-- RSA_PRIVATE_KEY configuration state at request time. -/
inductive KeyConfig
  | missing
  | unparsable
  | valid
deriving DecidableEq

/-- Responses of POST /activate. -/
inductive ActivateResp
  | notApproved
  | licensed (payload signature : String)
  | httpError (code : Nat) (detail : String)
deriving DecidableEq

/-- Result of the activate handler: response, resulting store state, and
whether a Telegram operator notification was sent. -/
structure ActOut where
  resp : ActivateResp
  conn : Conn
  notified : Bool
deriving DecidableEq

/-- POST /activate. `sign` and `b64` stand for the external pkcs1_15/SHA-256
signing and base64 encoding; `gen` and `fuel` parameterize alias generation;
`none` means the handler is stuck in the alias collision loop. -/
def activate (gen : Nat → String) (fuel now : Nat) (key : KeyConfig)
    (sign b64 : String → String) (raw : String) (c : Conn) : Option ActOut :=
  let hwid := canonId raw
  let authorized := db_get_authorized c
  let pending := db_get_pending c
  if hwid ∈ authorized then
    let c1 := db_update_last_validated hwid now c
    match key with
    | .missing => some ⟨.httpError 500 "RSA_PRIVATE_KEY not configured", c1, false⟩
    | .unparsable => some ⟨.httpError 500 "Invalid RSA private key", c1, false⟩
    | .valid =>
      let payloadStr := serializeClaim hwid
      some ⟨.licensed (b64 payloadStr) (sign payloadStr), c1, false⟩
  else
    let c1 := if hwid ∈ pending then c else db_add_pending hwid c
    match get_or_create_short_id gen fuel hwid c1 with
    | some (_, c2) => some ⟨.notApproved, c2, true⟩
    | none => none

/-- Responses of POST /validate. -/
inductive ValidateResp
  | yes
  | no
deriving DecidableEq

/-- Result of the validate handler. -/
structure ValOut where
  resp : ValidateResp
  conn : Conn
  notified : Bool
deriving DecidableEq

/-- POST /validate. -/
def validate (gen : Nat → String) (fuel now : Nat) (raw : String) (c : Conn) :
    Option ValOut :=
  let hwid := canonId raw
  let authorized := db_get_authorized c
  let pending := db_get_pending c
  if hwid ∈ authorized then
    some ⟨.yes, db_update_last_validated hwid now c, false⟩
  else if hwid ∈ pending then
    some ⟨.no, c, false⟩
  else
    match get_or_create_short_id gen fuel hwid (db_add_pending hwid c) with
    | some (_, c2) => some ⟨.no, c2, true⟩
    | none => none

/-- The shared approve sequence (bot_webhook approve branch and
approve_hwid): add to authorized if absent, then remove from pending if
present, membership tested against the lists read from the same state. -/
def approveTransition (hw : String) (now : Nat) (c : Conn) : Conn :=
  let authorized := db_get_authorized c
  let pending := db_get_pending c
  let c1 := if hw ∈ authorized then c else db_add_authorized hw now c
  if hw ∈ pending then db_remove_pending hw c1 else c1

/-- The deny sequence of bot_webhook: remove from pending if present, then
remove from authorized if present. -/
def denyTransition (hw : String) (c : Conn) : Conn :=
  let authorized := db_get_authorized c
  let pending := db_get_pending c
  let c1 := if hw ∈ pending then db_remove_pending hw c else c
  if hw ∈ authorized then db_remove_authorized hw c1 else c1

/-- Responses of POST /approve/(hwid_or_short). -/
inductive ApproveResp
  | ok (approved : String)
  | notFound
deriving DecidableEq

/-- POST /approve/(hwid_or_short): resolve the input as an 8-char short id, a
prefix (< 64 chars), or a full hwid, then approve. Carries no operator
authentication whatsoever. -/
def approve_hwid (now : Nat) (raw : String) (c : Conn) : ApproveResp × Conn :=
  let input := canonId raw
  let auth := db_get_authorized c
  let pending := db_get_pending c
  let hw? : Option String :=
    if input.data.length = 8 then
      let full := get_hwid_from_short_id input c
      if full == "" then none else some full
    else if input.data.length < 64 then
      (pending ++ auth).find? (fun h => strStarts (upperStr h) input)
    else
      some input
  match hw? with
  | none => (.notFound, c)
  | some hw => (.ok hw, approveTransition hw now c)

/-- Embeds cmd.split(":", 1): split at the first colon. -/
def splitFirstAux : List Char → List Char → Option (String × String)
  | _, [] => none
  | acc, ch :: rest =>
    if ch = ':' then some (String.mk acc.reverse, String.mk rest)
    else splitFirstAux (ch :: acc) rest

/-- Callback data parsing: action, short id. -/
def splitColon (s : String) : Option (String × String) := splitFirstAux [] s.data

/-- Embeds python text.split(): whitespace-separated words, no empties. -/
def splitWsAux : List Char → List Char → List (List Char)
  | acc, [] => if acc.isEmpty then [] else [acc.reverse]
  | acc, ch :: rest =>
    if isWsChar ch then
      if acc.isEmpty then splitWsAux [] rest else acc.reverse :: splitWsAux [] rest
    else splitWsAux (ch :: acc) rest

/-- python text.split(). -/
def pyWords (s : String) : List String := (splitWsAux [] s.data).map String.mk

/-- handle_admin_command, restricted to its effect on the store: only
/clear_pending and /remove mutate; every other command only reads and
reports. -/
def handle_admin_command (text : String) (c : Conn) : Conn :=
  match pyWords (trimStr text) with
  | [] => c
  | cmd0 :: rest =>
    let cmd := lowerStr cmd0
    if cmd = "/clear_pending" then db_clear_pending c
    else if cmd = "/remove" then
      match rest with
      | [] => c
      | p0 :: _ =>
        let pfx := upperStr p0
        match (db_get_authorized c).find? (fun h => strStarts (upperStr h) pfx) with
        | some found => db_remove_authorized found c
        | none => c
    else c

/-- An inbound Telegram update: a text message, a callback button press, or
anything else. -/
inductive TgUpdate
  | message (fromId chatId text : String)
  | callback (fromId cqId data : String)
  | other
deriving DecidableEq

/-- Result of the webhook handler: the ok flag of the JSON reply, the store
state, and the answer_callback_query text if one was sent. -/
structure HookOut where
  okFlag : Bool
  conn : Conn
  ack : Option String
deriving DecidableEq

/-- POST /bot/(token): token check, then either the admin-command message
path or the approve/deny callback path, with the sender checked against
ADMIN_ID in both. -/
def bot_webhook (botToken adminId : String) (now : Nat) (token : String)
    (u : TgUpdate) (c : Conn) : HookOut :=
  if botToken = "" ∨ token ≠ botToken then ⟨false, c, none⟩
  else match u with
  | .message fromId _chatId text =>
    if adminId = fromId then ⟨true, handle_admin_command text c, none⟩
    else ⟨true, c, none⟩
  | .callback fromId _cqId data =>
    if adminId ≠ fromId then ⟨true, c, some "Not authorized"⟩
    else match splitColon data with
    | none => ⟨true, c, some "Unknown cmd"⟩
    | some (action, sid) =>
      let hwid := get_hwid_from_short_id sid c
      if hwid = "" then ⟨true, c, some "ID not found"⟩
      else
        let hw := upperStr hwid
        if action = "approve" then ⟨true, approveTransition hw now c, some "Approved"⟩
        else if action = "deny" then ⟨true, denyTransition hw c, some "Denied"⟩
        else ⟨true, c, none⟩
  | .other => ⟨true, c, none⟩

/-- The four state-changing operations of the claims. -/
inductive Op
  | act (raw : String)
  | val (raw : String)
  | hook (token : String) (u : TgUpdate)
  | approveEp (raw : String)

/-- One operation applied to the store state (`none` = the alias collision
loop did not terminate within the given fuel). -/
def opStep (gen : Nat → String) (fuel now : Nat) (key : KeyConfig)
    (sign b64 : String → String) (botToken adminId : String) :
    Op → Conn → Option Conn
  | .act raw, c => (activate gen fuel now key sign b64 raw c).map (·.conn)
  | .val raw, c => (validate gen fuel now raw c).map (·.conn)
  | .hook token u, c => some (bot_webhook botToken adminId now token u c).conn
  | .approveEp raw, c => some (approve_hwid now raw c).2

/-- The invariant of the claims: no identity is in both the authorized and
the pending table. -/
def DisjointSets (c : Conn) : Prop :=
  ∀ h, h ∈ c.authorized.map (·.hwid) → h ∉ c.pending

instance (c : Conn) : Decidable (DisjointSets c) := by
  unfold DisjointSets; infer_instance

/-- A candidate stream on which every candidate collides with the one
already-used short id (the adversarial collision rate of the claim). -/
def c3gen : Nat → String := fun _ => "S1"

/-- A mapping state with the single entry ("S1", "H1"). -/
def c3conn : Conn := ⟨true, [], [], [("S1", "H1")]⟩

/-- A candidate stream whose first 20 candidates collide and whose 21st is
fresh: far beyond any bound of about 10 attempts. -/
def c3genLate : Nat → String := fun i => if i < 20 then "S1" else "S9"

/- ------------------------------------------------------------------ -/
/- Theorems                                                           -/
/- ------------------------------------------------------------------ -/

theorem genLoop_c3gen_none : ∀ fuel i, genLoop c3gen c3conn.mapping i fuel = none := by
  intro fuel
  induction fuel with
  | zero => intro i; rfl
  | succ f ih =>
    intro i
    simp only [genLoop]
    rw [if_pos (show shortIdUsed c3conn.mapping (c3gen i) = true from rfl)]
    exact ih (i + 1)

theorem filter_ne_eq_self_of_not_mem {l : List String} {h : String} (hn : h ∉ l) :
    l.filter (fun x => x != h) = l := by
  apply List.filter_eq_self.2
  intro a ha
  simp only [bne_iff_ne, ne_eq]
  exact fun he => hn (he ▸ ha)

theorem filter_hwid_ne_eq_self_of_not_mem {l : List AuthRec} {h : String}
    (hn : h ∉ l.map (·.hwid)) :
    l.filter (fun r => r.hwid != h) = l := by
  apply List.filter_eq_self.2
  intro r hr
  simp only [bne_iff_ne, ne_eq]
  exact fun he => hn (he ▸ List.mem_map_of_mem _ hr)

theorem approveTransition_eq_up {hw : String} {now : Nat} {c : Conn} (hu : c.up = true) :
    approveTransition hw now c
      = { c with
          authorized :=
            if hw ∈ c.authorized.map (·.hwid) then c.authorized
            else c.authorized ++ [⟨hw, now⟩],
          pending := c.pending.filter (fun x => x != hw) } := by
  obtain ⟨up, au, pe, ma⟩ := c
  replace hu : up = true := hu
  subst hu
  unfold approveTransition db_get_authorized db_get_pending db_add_authorized db_remove_pending
  by_cases ha : hw ∈ au.map (·.hwid) <;>
    by_cases hp : hw ∈ pe <;>
      simp [ha, hp, filter_ne_eq_self_of_not_mem]

theorem approveTransition_down {hw : String} {now : Nat} {c : Conn} (hu : c.up = false) :
    approveTransition hw now c = c := by
  unfold approveTransition db_get_authorized db_get_pending db_add_authorized db_remove_pending
  simp [hu]

theorem denyTransition_eq_up {hw : String} {c : Conn} (hu : c.up = true) :
    denyTransition hw c
      = { c with
          authorized := c.authorized.filter (fun r => r.hwid != hw),
          pending := c.pending.filter (fun x => x != hw) } := by
  obtain ⟨up, au, pe, ma⟩ := c
  replace hu : up = true := hu
  subst hu
  unfold denyTransition db_get_authorized db_get_pending db_remove_authorized db_remove_pending
  by_cases ha : hw ∈ au.map (·.hwid) <;>
    by_cases hp : hw ∈ pe <;>
      simp [ha, hp, filter_ne_eq_self_of_not_mem, filter_hwid_ne_eq_self_of_not_mem]

theorem denyTransition_down {hw : String} {c : Conn} (hu : c.up = false) :
    denyTransition hw c = c := by
  unfold denyTransition db_get_authorized db_get_pending db_remove_authorized db_remove_pending
  simp [hu]

theorem approveTransition_up_eq (hw : String) (now : Nat) (c : Conn) :
    (approveTransition hw now c).up = c.up := by
  cases hu : c.up
  · rw [approveTransition_down hu, hu]
  · rw [approveTransition_eq_up hu]
    exact hu

theorem approveTransition_mapping_eq (hw : String) (now : Nat) (c : Conn) :
    (approveTransition hw now c).mapping = c.mapping := by
  cases hu : c.up
  · rw [approveTransition_down hu]
  · rw [approveTransition_eq_up hu]


theorem approveTransition_post (hw : String) (now : Nat) {c : Conn} (hu : c.up = true) :
    hw ∈ (approveTransition hw now c).authorized.map (·.hwid) ∧
    hw ∉ (approveTransition hw now c).pending := by
  rw [approveTransition_eq_up hu]
  constructor
  · by_cases ha : hw ∈ c.authorized.map (·.hwid)
    · simp [ha]
    · simp [ha]
  · simp [List.mem_filter]

theorem approveTransition_fixed {hw : String} (now : Nat) {c : Conn} (hu : c.up = true)
    (hin : hw ∈ c.authorized.map (·.hwid)) (hout : hw ∉ c.pending) :
    approveTransition hw now c = c := by
  rw [approveTransition_eq_up hu, if_pos hin, filter_ne_eq_self_of_not_mem hout]

theorem disjoint_approveTransition {hw : String} {now : Nat} {c : Conn}
    (hd : DisjointSets c) : DisjointSets (approveTransition hw now c) := by
  cases hu : c.up
  · rw [approveTransition_down hu]; exact hd
  · rw [approveTransition_eq_up hu]
    intro x hx hp
    rw [List.mem_filter] at hp
    have hxne : x ≠ hw := by
      intro he
      subst he
      simp at hp
    by_cases ha : hw ∈ c.authorized.map (·.hwid)
    · rw [if_pos ha] at hx
      exact hd x hx hp.1
    · rw [if_neg ha, List.map_append] at hx
      rcases List.mem_append.1 hx with hx1 | hx2
      · exact hd x hx1 hp.1
      · simp at hx2
        exact hxne hx2

theorem disjoint_denyTransition {hw : String} {c : Conn}
    (hd : DisjointSets c) : DisjointSets (denyTransition hw c) := by
  cases hu : c.up
  · rw [denyTransition_down hu]; exact hd
  · rw [denyTransition_eq_up hu]
    intro x hx hp
    rw [List.mem_filter] at hp
    rcases List.mem_map.1 hx with ⟨r, hr, hrx⟩
    exact hd x (List.mem_map.2 ⟨r, (List.mem_filter.1 hr).1, hrx⟩) hp.1

theorem disjoint_of_fields {c c' : Conn}
    (h1 : c'.authorized.map (·.hwid) = c.authorized.map (·.hwid))
    (h2 : c'.pending = c.pending) (hd : DisjointSets c) : DisjointSets c' := by
  intro x hx
  rw [h2]
  exact hd x (h1 ▸ hx)

theorem update_lv_authHwids (h : String) (now : Nat) (c : Conn) :
    (db_update_last_validated h now c).authorized.map (·.hwid)
      = c.authorized.map (·.hwid) := by
  unfold db_update_last_validated
  cases hu : c.up
  · rfl
  · simp only [if_true]
    rw [List.map_map]
    apply List.map_congr_left
    intro r _
    simp only [Function.comp_apply]
    split <;> rfl

theorem update_lv_pending (h : String) (now : Nat) (c : Conn) :
    (db_update_last_validated h now c).pending = c.pending := by
  unfold db_update_last_validated
  cases hu : c.up <;> simp

theorem disjoint_update_lv {h : String} {now : Nat} {c : Conn} (hd : DisjointSets c) :
    DisjointSets (db_update_last_validated h now c) :=
  disjoint_of_fields (update_lv_authHwids h now c) (update_lv_pending h now c) hd

theorem disjoint_add_pending {h : String} {c : Conn}
    (hna : h ∉ c.authorized.map (·.hwid)) (hd : DisjointSets c) :
    DisjointSets (db_add_pending h c) := by
  unfold db_add_pending
  cases hu : c.up
  · exact hd
  · simp only [if_true]
    by_cases hp : h ∈ c.pending
    · simp only [hp, if_true]; exact hd
    · simp only [hp, if_false]
      intro x hx
      simp only [List.mem_append, List.mem_singleton, not_or]
      exact ⟨hd x hx, fun he => hna (he ▸ hx)⟩

theorem disjoint_remove_pending {h : String} {c : Conn} (hd : DisjointSets c) :
    DisjointSets (db_remove_pending h c) := by
  unfold db_remove_pending
  cases hu : c.up
  · exact hd
  · simp only [if_true]
    intro x hx hmem
    exact hd x hx (List.mem_filter.1 hmem).1

theorem disjoint_remove_authorized {h : String} {c : Conn} (hd : DisjointSets c) :
    DisjointSets (db_remove_authorized h c) := by
  unfold db_remove_authorized
  cases hu : c.up
  · exact hd
  · simp only [if_true]
    intro x hx hmem
    rcases List.mem_map.1 hx with ⟨r, hr, hrx⟩
    exact hd x (List.mem_map.2 ⟨r, (List.mem_filter.1 hr).1, hrx⟩) hmem

theorem disjoint_clear_pending {c : Conn} (hd : DisjointSets c) :
    DisjointSets (db_clear_pending c) := by
  unfold db_clear_pending
  cases hu : c.up
  · exact hd
  · simp only [if_true]
    intro x _ hmem
    exact (List.not_mem_nil x) hmem

theorem disjoint_handle_admin_command {text : String} {c : Conn} (hd : DisjointSets c) :
    DisjointSets (handle_admin_command text c) := by
  unfold handle_admin_command
  rcases pyWords (trimStr text) with _ | ⟨cmd0, rest⟩
  · exact hd
  · dsimp only
    by_cases h1 : lowerStr cmd0 = "/clear_pending"
    · rw [if_pos h1]
      exact disjoint_clear_pending hd
    · rw [if_neg h1]
      by_cases h2 : lowerStr cmd0 = "/remove"
      · rw [if_pos h2]
        rcases rest with _ | ⟨p0, rest'⟩
        · exact hd
        · dsimp only
          rcases hf : (db_get_authorized c).find? (fun x => strStarts (upperStr x) (upperStr p0))
            with _ | found
          · exact hd
          · exact disjoint_remove_authorized hd
      · rw [if_neg h2]
        exact hd

theorem get_or_create_fields {gen : Nat → String} {fuel : Nat} {x : String}
    {c : Conn} {sid : String} {c' : Conn}
    (h : get_or_create_short_id gen fuel x c = some (sid, c')) :
    c'.authorized = c.authorized ∧ c'.pending = c.pending ∧ c'.up = c.up := by
  unfold get_or_create_short_id at h
  split at h
  · split at h
    · have h' := Option.some.inj h
      injection h' with h1 h2
      refine ⟨?_, ?_, ?_⟩ <;> rw [← h2]
    · split at h
      · have h' := Option.some.inj h
        injection h' with h1 h2
        refine ⟨?_, ?_, ?_⟩ <;> rw [← h2]
      · exact absurd h (by simp)
  · have h' := Option.some.inj h
    injection h' with h1 h2
    refine ⟨?_, ?_, ?_⟩ <;> rw [← h2]

theorem disjoint_activate {gen : Nat → String} {fuel now : Nat} {key : KeyConfig}
    {sign b64 : String → String} {raw : String} {c : Conn} {o : ActOut}
    (h : activate gen fuel now key sign b64 raw c = some o) (hd : DisjointSets c) :
    DisjointSets o.conn := by
  unfold activate at h
  dsimp only at h
  split at h
  · split at h <;>
      · obtain rfl := Option.some.inj h
        exact disjoint_update_lv hd
  · rename_i hmem
    split at h
    · rename_i x1 c2 hg
      obtain rfl := Option.some.inj h
      have hd1 : DisjointSets (if canonId raw ∈ db_get_pending c then c
          else db_add_pending (canonId raw) c) := by
        split
        · exact hd
        · unfold db_get_authorized at hmem
          by_cases hu : c.up = true
          · simp only [hu, if_true] at hmem
            exact disjoint_add_pending hmem hd
          · unfold db_add_pending
            rw [Bool.not_eq_true] at hu
            rw [hu]
            exact hd
      obtain ⟨h1, h2, _⟩ := get_or_create_fields hg
      exact disjoint_of_fields (by rw [h1]) h2 hd1
    · exact absurd h (by simp)

theorem disjoint_validate {gen : Nat → String} {fuel now : Nat}
    {raw : String} {c : Conn} {o : ValOut}
    (h : validate gen fuel now raw c = some o) (hd : DisjointSets c) :
    DisjointSets o.conn := by
  unfold validate at h
  dsimp only at h
  split at h
  · obtain rfl := Option.some.inj h
    exact disjoint_update_lv hd
  · rename_i hmem
    split at h
    · obtain rfl := Option.some.inj h
      exact hd
    · split at h
      · rename_i x1 c2 hg
        obtain rfl := Option.some.inj h
        have hd1 : DisjointSets (db_add_pending (canonId raw) c) := by
          unfold db_get_authorized at hmem
          by_cases hu : c.up = true
          · simp only [hu, if_true] at hmem
            exact disjoint_add_pending hmem hd
          · unfold db_add_pending
            rw [Bool.not_eq_true] at hu
            rw [hu]
            exact hd
        obtain ⟨h1, h2, _⟩ := get_or_create_fields hg
        exact disjoint_of_fields (by rw [h1]) h2 hd1
      · exact absurd h (by simp)

theorem disjoint_bot_webhook {botToken adminId token : String} {now : Nat}
    {u : TgUpdate} {c : Conn} (hd : DisjointSets c) :
    DisjointSets (bot_webhook botToken adminId now token u c).conn := by
  unfold bot_webhook
  by_cases htok : botToken = "" ∨ token ≠ botToken
  · rw [if_pos htok]
    exact hd
  · rw [if_neg htok]
    cases u with
    | message fromId chatId text =>
      dsimp only
      by_cases hadm : adminId = fromId
      · rw [if_pos hadm]
        exact disjoint_handle_admin_command hd
      · rw [if_neg hadm]
        exact hd
    | callback fromId cqId data =>
      dsimp only
      by_cases hadm : adminId ≠ fromId
      · rw [if_pos hadm]
        exact hd
      · rw [if_neg hadm]
        rcases hsc : splitColon data with _ | ⟨action, sid⟩
        · exact hd
        · dsimp only
          by_cases hw0 : get_hwid_from_short_id sid c = ""
          · rw [if_pos hw0]
            exact hd
          · rw [if_neg hw0]
            by_cases hap : action = "approve"
            · rw [if_pos hap]
              exact disjoint_approveTransition hd
            · rw [if_neg hap]
              by_cases hde : action = "deny"
              · rw [if_pos hde]
                exact disjoint_denyTransition hd
              · rw [if_neg hde]
                exact hd
    | other => exact hd

theorem disjoint_approve_hwid {now : Nat} {raw : String} {c : Conn}
    (hd : DisjointSets c) : DisjointSets (approve_hwid now raw c).2 := by
  unfold approve_hwid
  dsimp only
  split
  · exact hd
  · exact disjoint_approveTransition hd

/-- C6: every operation of the workflow — activation request, validation
request, operator approve or deny through the webhook (including admin text
commands), and the HTTP approve endpoint — preserves the invariant that an
identity is in at most one of the pending and authorized tables; since the
initial tables are empty, every reachable state satisfies it. -/
theorem pending_authorized_disjoint_preserved
    (gen : Nat → String) (fuel now : Nat) (key : KeyConfig)
    (sign b64 : String → String) (botToken adminId : String)
    (op : Op) (c c' : Conn)
    (hstep : opStep gen fuel now key sign b64 botToken adminId op c = some c')
    (hd : DisjointSets c) : DisjointSets c' := by
  cases op with
  | act raw =>
    rcases Option.map_eq_some'.1 hstep with ⟨o, ho, rfl⟩
    exact disjoint_activate ho hd
  | val raw =>
    rcases Option.map_eq_some'.1 hstep with ⟨o, ho, rfl⟩
    exact disjoint_validate ho hd
  | hook token u =>
    rcases Option.some.inj hstep with rfl
    exact disjoint_bot_webhook hd
  | approveEp raw =>
    rcases Option.some.inj hstep with rfl
    exact disjoint_approve_hwid hd

/-- Witness for C6: a webhook approve on a concrete disjoint state with one
pending identity yields a disjoint state again. -/
theorem pending_authorized_disjoint_preserved_witness :
    opStep (fun _ => "S9") 1 4 .valid id id "T" "A"
        (.hook "T" (.callback "A" "q" "approve:S1")) ⟨true, [], ["H1"], [("S1", "H1")]⟩
      = some ⟨true, [⟨"H1", 4⟩], [], [("S1", "H1")]⟩ ∧
    DisjointSets ⟨true, [⟨"H1", 4⟩], [], [("S1", "H1")]⟩ :=
  ⟨by decide,
   pending_authorized_disjoint_preserved (fun _ => "S9") 1 4 .valid id id "T" "A"
     (.hook "T" (.callback "A" "q" "approve:S1")) ⟨true, [], ["H1"], [("S1", "H1")]⟩
     ⟨true, [⟨"H1", 4⟩], [], [("S1", "H1")]⟩ (by decide) (by decide)⟩

/-- C1: the code answers a validation (and an activation) request with a
plain negative authorization result when the store is unreachable — even for
an identity that is present in the authorized table — instead of a
distinguishable StoreUnavailable error: db_get_authorized returns [] on a
store failure and the handlers have no error path at all. -/
theorem store_outage_reported_as_unauthorized :
    validate (fun _ => "ZZ") 1 9 "AX" ⟨false, [⟨"AX", 0⟩], [], []⟩
      = some ⟨.no, ⟨false, [⟨"AX", 0⟩], [], []⟩, true⟩ ∧
    activate (fun _ => "ZZ") 1 9 .valid id id "AX" ⟨false, [⟨"AX", 0⟩], [], []⟩
      = some ⟨.notApproved, ⟨false, [⟨"AX", 0⟩], [], []⟩, true⟩ := by
  decide

/-- C3: the collision-retry loop of get_or_create_short_id is unbounded: on a
state whose single short id collides with every generated candidate the loop
never terminates (none for every fuel), and with a candidate stream that
first succeeds on attempt 21 the code happily keeps retrying far past 10
attempts instead of failing with an AliasSpaceExhausted condition. -/
theorem alias_collision_loop_unbounded :
    (∀ fuel, get_or_create_short_id c3gen fuel "H2" c3conn = none) ∧
    get_or_create_short_id c3genLate 25 "H2" c3conn
      = some ("S9", ⟨true, [], [], [("S1", "H1"), ("S9", "H2")]⟩) := by
  constructor
  · intro fuel
    simp only [get_or_create_short_id]
    rw [if_pos (show c3conn.up = true from rfl)]
    rw [show lookupShortByHwid c3conn.mapping "H2" = none from rfl]
    rw [genLoop_c3gen_none fuel 0]
  · decide

/-- C5: an empty identity string is not rejected as MalformedIdentity; both
activation and validation canonicalize it to "" and push it through the
normal unknown-identity flow, creating a pending record and an alias mapping
for the empty identity — a state mutation where the claim requires rejection
before any mutation. -/
theorem empty_identity_mutates_state :
    activate (fun _ => "S1") 1 3 .valid id id "" ⟨true, [], [], []⟩
      = some ⟨.notApproved, ⟨true, [], [""], [("S1", "")]⟩, true⟩ ∧
    validate (fun _ => "S1") 1 3 "" ⟨true, [], [], []⟩
      = some ⟨.no, ⟨true, [], [""], [("S1", "")]⟩, true⟩ := by
  decide

/-- C2 counterexample: the POST /approve endpoint carries no operator
attribution at all, yet a request to it moves an identity from pending to
authorized — a decision not attributable to the operator that changes the
pending and authorized sets. -/
theorem approve_endpoint_bypasses_operator_check :
    approve_hwid 7 "AAAA1111" ⟨true, [], ["H1"], [("AAAA1111", "H1")]⟩
      = (.ok "H1", ⟨true, [⟨"H1", 7⟩], [], [("AAAA1111", "H1")]⟩) ∧
    (⟨true, [⟨"H1", 7⟩], [], [("AAAA1111", "H1")]⟩ : Conn)
      ≠ ⟨true, [], ["H1"], [("AAAA1111", "H1")]⟩ := by
  decide

/-- C4 counterexample: the serialized license claim's field names are hwid,
valid and exp — not the identity, valid and expires_at required by the spec's
wire format — as the exact serialized bytes for identity "ABC-123" show. -/
theorem claim_fields_differ_from_spec :
    (claimFields "ABC-123").map Prod.fst = ["hwid", "valid", "exp"] ∧
    (claimFields "ABC-123").map Prod.fst ≠ specLicenseClaimFields ∧
    serializeClaim "ABC-123"
      = "\x7b\"hwid\":\"ABC-123\",\"valid\":true,\"exp\":\"2030-01-01\"\x7d" := by
  decide

/-- C7 counterexample: an activation request for an identity that is already
pending sends the operator notification again (notified = true) even though
no state changes — activate's send_telegram call is outside the
not-yet-pending guard. -/
theorem activate_renotifies_when_pending :
    activate (fun _ => "S9") 1 5 .valid id id "H1" ⟨true, [], ["H1"], [("S1", "H1")]⟩
      = some ⟨.notApproved, ⟨true, [], ["H1"], [("S1", "H1")]⟩, true⟩ := by
  decide

/-- C2 (amended): decisions arriving through the Telegram webhook — both the
approve/deny callback path and the admin-command message path — are rejected
with no state change whenever the sender is not the configured operator; the
HTTP approve endpoint, by contrast, performs approval with no operator
attribution at all (see its counterexample). -/
theorem webhook_rejects_nonoperator
    (botToken adminId token fromId cqId data chatId text : String) (now : Nat) (c : Conn)
    (hne : fromId ≠ adminId) :
    (bot_webhook botToken adminId now token (.callback fromId cqId data) c).conn = c ∧
    (bot_webhook botToken adminId now token (.message fromId chatId text) c).conn = c := by
  constructor
  · unfold bot_webhook
    by_cases htok : botToken = "" ∨ token ≠ botToken
    · rw [if_pos htok]
    · rw [if_neg htok]
      dsimp only
      rw [if_pos (Ne.symm hne)]
  · unfold bot_webhook
    by_cases htok : botToken = "" ∨ token ≠ botToken
    · rw [if_pos htok]
    · rw [if_neg htok]
      dsimp only
      rw [if_neg (fun h => hne h.symm)]

/-- Witness for C2's amended theorem: a non-operator sender "B" changes
nothing on a concrete state. -/
theorem webhook_rejects_nonoperator_witness :
    (bot_webhook "T" "A" 3 "T" (.callback "B" "q" "approve:S1")
        ⟨true, [], ["H1"], [("S1", "H1")]⟩).conn = ⟨true, [], ["H1"], [("S1", "H1")]⟩ ∧
    (bot_webhook "T" "A" 3 "T" (.message "B" "ch" "/clear_pending")
        ⟨true, [], ["H1"], [("S1", "H1")]⟩).conn = ⟨true, [], ["H1"], [("S1", "H1")]⟩ :=
  webhook_rejects_nonoperator "T" "A" "T" "B" "q" "approve:S1" "ch" "/clear_pending" 3
    ⟨true, [], ["H1"], [("S1", "H1")]⟩ (by decide)

/-- C9: applying the webhook approve decision twice yields the same terminal
state as applying it once — the second call answers "Approved" again with no
error and no state change — and after the first call the identity is
authorized and no longer pending. -/
theorem approve_decision_idempotent
    (botToken adminId cqId data sid : String) (now now2 : Nat) (c : Conn)
    (hbt : botToken ≠ "")
    (hup : c.up = true)
    (hdata : splitColon data = some ("approve", sid))
    (hres : get_hwid_from_short_id sid c ≠ "") :
    bot_webhook botToken adminId now2 botToken (.callback adminId cqId data)
        (bot_webhook botToken adminId now botToken (.callback adminId cqId data) c).conn
      = ⟨true, (bot_webhook botToken adminId now botToken (.callback adminId cqId data) c).conn,
          some "Approved"⟩ ∧
    upperStr (get_hwid_from_short_id sid c)
      ∈ (bot_webhook botToken adminId now botToken
          (.callback adminId cqId data) c).conn.authorized.map (·.hwid) ∧
    upperStr (get_hwid_from_short_id sid c)
      ∉ (bot_webhook botToken adminId now botToken (.callback adminId cqId data) c).conn.pending := by
  have htok : ¬(botToken = "" ∨ botToken ≠ botToken) := by simp [hbt]
  have hadm : ¬(adminId ≠ adminId) := by simp
  have h1 : bot_webhook botToken adminId now botToken (.callback adminId cqId data) c
      = ⟨true, approveTransition (upperStr (get_hwid_from_short_id sid c)) now c,
          some "Approved"⟩ := by
    unfold bot_webhook
    rw [if_neg htok]
    dsimp only
    rw [if_neg hadm, hdata]
    dsimp only
    rw [if_neg hres, if_pos rfl]
  have hc1up : (approveTransition (upperStr (get_hwid_from_short_id sid c)) now c).up = true := by
    rw [approveTransition_up_eq]
    exact hup
  have hres1 : get_hwid_from_short_id sid
        (approveTransition (upperStr (get_hwid_from_short_id sid c)) now c)
      = get_hwid_from_short_id sid c := by
    unfold get_hwid_from_short_id
    rw [approveTransition_up_eq, approveTransition_mapping_eq]
  have hpost := approveTransition_post (upperStr (get_hwid_from_short_id sid c)) now hup
  have h2 : bot_webhook botToken adminId now2 botToken (.callback adminId cqId data)
        (approveTransition (upperStr (get_hwid_from_short_id sid c)) now c)
      = ⟨true, approveTransition (upperStr (get_hwid_from_short_id sid c)) now c,
          some "Approved"⟩ := by
    unfold bot_webhook
    rw [if_neg htok]
    dsimp only
    rw [if_neg hadm, hdata]
    dsimp only
    rw [hres1, if_neg hres, if_pos rfl]
    rw [approveTransition_fixed now2 hc1up hpost.1 hpost.2]
  refine ⟨?_, ?_, ?_⟩
  · rw [h1]
    exact h2
  · rw [h1]
    exact hpost.1
  · rw [h1]
    exact hpost.2

/-- Witness for C9: a concrete double approve of the pending identity "H1"
through its short id. -/
theorem approve_decision_idempotent_witness :
    bot_webhook "T" "A" 5 "T" (.callback "A" "q" "approve:S1")
        (bot_webhook "T" "A" 4 "T" (.callback "A" "q" "approve:S1")
          ⟨true, [], ["H1"], [("S1", "H1")]⟩).conn
      = ⟨true, (bot_webhook "T" "A" 4 "T" (.callback "A" "q" "approve:S1")
          ⟨true, [], ["H1"], [("S1", "H1")]⟩).conn, some "Approved"⟩ ∧
    upperStr (get_hwid_from_short_id "S1" ⟨true, [], ["H1"], [("S1", "H1")]⟩)
      ∈ (bot_webhook "T" "A" 4 "T" (.callback "A" "q" "approve:S1")
          ⟨true, [], ["H1"], [("S1", "H1")]⟩).conn.authorized.map (·.hwid) ∧
    upperStr (get_hwid_from_short_id "S1" ⟨true, [], ["H1"], [("S1", "H1")]⟩)
      ∉ (bot_webhook "T" "A" 4 "T" (.callback "A" "q" "approve:S1")
          ⟨true, [], ["H1"], [("S1", "H1")]⟩).conn.pending :=
  approve_decision_idempotent "T" "A" "q" "approve:S1" "S1" 4 5
    ⟨true, [], ["H1"], [("S1", "H1")]⟩ (by decide) (by decide) (by decide) (by decide)

theorem find?_fst_eq_of_nodup {m : List (String × String)} {p : String × String}
    (hnd : (m.map Prod.fst).Nodup) (hp : p ∈ m) :
    m.find? (fun q => q.1 == p.1) = some p := by
  induction m with
  | nil => cases hp
  | cons q t ih =>
    rcases List.mem_cons.1 hp with rfl | hpt
    · rw [List.find?_cons_of_pos _ (by simp)]
    · rw [List.map_cons, List.nodup_cons] at hnd
      cases hqb : (q.1 == p.1) with
      | true =>
        exfalso
        have hmt : p.1 ∈ t.map Prod.fst := List.mem_map_of_mem _ hpt
        have hq' : q.1 = p.1 := by simpa using hqb
        exact hnd.1 (hq' ▸ hmt)
      | false =>
        rw [List.find?_cons, hqb]
        exact ih hnd.2 hpt

theorem find?_append_none {α : Type} {p : α → Bool} {l1 l2 : List α}
    (h : l1.find? p = none) :
    (l1 ++ l2).find? p = l2.find? p := by
  induction l1 with
  | nil => rfl
  | cons a t ih =>
    by_cases hpa : p a = true
    · rw [List.find?_cons_of_pos _ hpa] at h
      cases h
    · rw [List.find?_cons_of_neg _ hpa] at h
      rw [List.cons_append, List.find?_cons_of_neg _ hpa]
      exact ih h

theorem genLoop_fresh {gen : Nat → String} {m : List (String × String)} :
    ∀ fuel i s, genLoop gen m i fuel = some s → shortIdUsed m s = false := by
  intro fuel
  induction fuel with
  | zero =>
    intro i s h
    cases h
  | succ f ih =>
    intro i s h
    simp only [genLoop] at h
    cases hb : shortIdUsed m (gen i)
    · rw [hb] at h
      simp only [Bool.false_eq_true, if_false] at h
      obtain rfl := Option.some.inj h
      exact hb
    · rw [hb] at h
      simp only [if_true] at h
      exact ih (i + 1) s h

/-- C8: get_or_create_short_id is idempotent and round-trips: a successful
call yields an alias and a state from which a second call (any fuel) returns
the same alias without changing the state, and resolving that alias through
get_hwid_from_short_id returns the original identity, provided the mapping
table's short ids are unique (its primary-key invariant). -/
theorem alias_idempotent_roundtrip
    (gen : Nat → String) (fuel fuel2 : Nat) (i : String) (c : Conn) (sid : String) (c' : Conn)
    (hup : c.up = true)
    (hnd : (c.mapping.map Prod.fst).Nodup)
    (hcall : get_or_create_short_id gen fuel i c = some (sid, c')) :
    get_or_create_short_id gen fuel2 i c' = some (sid, c') ∧
    get_hwid_from_short_id sid c' = i := by
  unfold get_or_create_short_id at hcall
  rw [if_pos hup] at hcall
  rcases hl : lookupShortByHwid c.mapping i with _ | s
  · rw [hl] at hcall
    rcases hg : genLoop gen c.mapping 0 fuel with _ | s
    · rw [hg] at hcall
      cases hcall
    · rw [hg] at hcall
      dsimp only at hcall
      have h' := Option.some.inj hcall
      injection h' with e1 e2
      subst e1
      subst e2
      have hfresh : shortIdUsed c.mapping s = false := genLoop_fresh fuel 0 s hg
      have hfind1 : c.mapping.find? (fun p => p.1 == s) = none := by
        unfold shortIdUsed at hfresh
        rcases hq : c.mapping.find? (fun p => p.1 == s) with _ | q
        · exact hq
        · rw [hq] at hfresh
          cases hfresh
      have hfind2 : c.mapping.find? (fun p => p.2 == i) = none := by
        unfold lookupShortByHwid at hl
        exact Option.map_eq_none'.1 hl
      constructor
      · unfold get_or_create_short_id
        rw [if_pos hup]
        have hlk : lookupShortByHwid (c.mapping ++ [(s, i)]) i = some s := by
          unfold lookupShortByHwid
          rw [find?_append_none hfind2]
          simp [List.find?]
        rw [hlk]
      · unfold get_hwid_from_short_id
        rw [if_pos hup]
        rw [find?_append_none hfind1]
        simp [List.find?]
  · rw [hl] at hcall
    dsimp only at hcall
    have h' := Option.some.inj hcall
    injection h' with e1 e2
    subst e1
    subst e2
    constructor
    · unfold get_or_create_short_id
      rw [if_pos hup, hl]
    · unfold lookupShortByHwid at hl
      rcases hfp : c.mapping.find? (fun p => p.2 == i) with _ | p
      · rw [hfp] at hl
        cases hl
      · rw [hfp] at hl
        have hp1 : p.1 = s := by simpa using hl
        have hpm : p ∈ c.mapping := List.mem_of_find?_eq_some hfp
        have hp2 : p.2 = i := by simpa using List.find?_some hfp
        unfold get_hwid_from_short_id
        rw [if_pos hup]
        have hfq := find?_fst_eq_of_nodup hnd hpm
        rw [hp1] at hfq
        rw [hfq]
        exact hp2

/-- Witness for C8: creating an alias for the new identity "H2" and calling
again returns the same alias and resolves back to "H2". -/
theorem alias_idempotent_roundtrip_witness :
    get_or_create_short_id (fun _ => "S2") 5 "H2"
        ⟨true, [], [], [("S1", "H1"), ("S2", "H2")]⟩
      = some ("S2", ⟨true, [], [], [("S1", "H1"), ("S2", "H2")]⟩) ∧
    get_hwid_from_short_id "S2" ⟨true, [], [], [("S1", "H1"), ("S2", "H2")]⟩ = "H2" :=
  alias_idempotent_roundtrip (fun _ => "S2") 1 5 "H2" ⟨true, [], [], [("S1", "H1")]⟩
    "S2" ⟨true, [], [], [("S1", "H1"), ("S2", "H2")]⟩ (by decide) (by decide) (by decide)

theorem find?_update_lastValidated (h : String) (now : Nat) :
    ∀ l : List AuthRec, h ∈ l.map (·.hwid) →
      ((l.map (fun r => if r.hwid == h then { r with lastValidated := now } else r)).find?
          (fun r => r.hwid == h)).map (·.lastValidated) = some now := by
  intro l
  induction l with
  | nil =>
    intro hm
    simp at hm
  | cons r t ih =>
    intro hm
    cases hb : (r.hwid == h) with
    | true =>
      rw [List.map_cons, if_pos hb]
      rw [List.find?_cons_of_pos _ (by simpa using hb)]
      rfl
    | false =>
      have hne : r.hwid ≠ h := by simpa using hb
      rw [List.map_cons, if_neg (by simp [hb])]
      rw [List.find?_cons_of_neg _ (by simp [hb])]
      apply ih
      rw [List.map_cons, List.mem_cons] at hm
      rcases hm with h1 | h1
      · exact absurd h1.symm hne
      · exact h1

/-- C10: when the identity is authorized, activate refreshes the
last_validated timestamp before the signing key is inspected, so a missing
or unparsable RSA key yields a 500 error response while the timestamp
refresh has already been applied to the store and is not rolled back. -/
theorem timestamp_refreshed_despite_signing_error
    (gen : Nat → String) (fuel now : Nat) (key : KeyConfig) (sign b64 : String → String)
    (raw : String) (c : Conn)
    (hup : c.up = true)
    (hauth : canonId raw ∈ c.authorized.map (·.hwid))
    (hkey : key ≠ .valid) :
    (∃ d, activate gen fuel now key sign b64 raw c
        = some ⟨.httpError 500 d, db_update_last_validated (canonId raw) now c, false⟩) ∧
    lastValidatedOf (db_update_last_validated (canonId raw) now c) (canonId raw) = some now := by
  constructor
  · have hmem : canonId raw ∈ db_get_authorized c := by
      unfold db_get_authorized
      rw [hup]
      simpa using hauth
    unfold activate
    dsimp only
    rw [if_pos hmem]
    cases key with
    | missing => exact ⟨"RSA_PRIVATE_KEY not configured", rfl⟩
    | unparsable => exact ⟨"Invalid RSA private key", rfl⟩
    | valid => exact absurd rfl hkey
  · unfold lastValidatedOf db_update_last_validated
    rw [if_pos hup]
    exact find?_update_lastValidated (canonId raw) now c.authorized hauth

/-- Witness for C10: concrete authorized identity "H1", missing key. -/
theorem timestamp_refreshed_despite_signing_error_witness :
    (∃ d, activate (fun _ => "S9") 1 8 .missing id id "h1" ⟨true, [⟨"H1", 0⟩], [], []⟩
        = some ⟨.httpError 500 d,
            db_update_last_validated (canonId "h1") 8 ⟨true, [⟨"H1", 0⟩], [], []⟩, false⟩) ∧
    lastValidatedOf (db_update_last_validated (canonId "h1") 8 ⟨true, [⟨"H1", 0⟩], [], []⟩)
        (canonId "h1") = some 8 :=
  timestamp_refreshed_despite_signing_error (fun _ => "S9") 1 8 .missing id id "h1"
    ⟨true, [⟨"H1", 0⟩], [], []⟩ (by decide) (by decide) (by decide)

/-- C4 (amended): for an authorized identity the activate response
base64-encodes exactly the serialized claim string and signs exactly that
same string (the detached signature covers the exact bytes transported), the
claim serializes with the stable field order hwid, valid, exp and no
whitespace (renderJsonObj), and the identity-bearing field hwid holds the
canonical (trimmed, upper-cased) identity — but the field names are hwid,
valid, exp, not the identity, valid, expires_at of the spec's wire format
(see the counterexample). -/
theorem license_claim_exact_bytes
    (gen : Nat → String) (fuel now : Nat) (sign b64 : String → String)
    (raw : String) (c : Conn)
    (hup : c.up = true)
    (hauth : canonId raw ∈ c.authorized.map (·.hwid)) :
    activate gen fuel now .valid sign b64 raw c
      = some ⟨.licensed (b64 (serializeClaim (canonId raw))) (sign (serializeClaim (canonId raw))),
              db_update_last_validated (canonId raw) now c, false⟩ ∧
    (claimFields (canonId raw)).map Prod.fst = ["hwid", "valid", "exp"] ∧
    (claimFields (canonId raw)).lookup "hwid" = some (jsonStr (canonId raw)) := by
  refine ⟨?_, rfl, rfl⟩
  have hmem : canonId raw ∈ db_get_authorized c := by
    unfold db_get_authorized
    rw [hup]
    simpa using hauth
  unfold activate
  dsimp only
  rw [if_pos hmem]

/-- Witness for C4's amended theorem: concrete authorized identity
" abc-123 " canonicalized to "ABC-123". -/
theorem license_claim_exact_bytes_witness :
    activate (fun _ => "S9") 1 8 .valid (fun s => s ++ "#sig") id " abc-123 "
        ⟨true, [⟨"ABC-123", 0⟩], [], []⟩
      = some ⟨.licensed (id (serializeClaim (canonId " abc-123 ")))
              ((fun s => s ++ "#sig") (serializeClaim (canonId " abc-123 "))),
            db_update_last_validated (canonId " abc-123 ") 8 ⟨true, [⟨"ABC-123", 0⟩], [], []⟩,
            false⟩ ∧
    (claimFields (canonId " abc-123 ")).map Prod.fst = ["hwid", "valid", "exp"] ∧
    (claimFields (canonId " abc-123 ")).lookup "hwid" = some (jsonStr (canonId " abc-123 ")) :=
  license_claim_exact_bytes (fun _ => "S9") 1 8 (fun s => s ++ "#sig") id " abc-123 "
    ⟨true, [⟨"ABC-123", 0⟩], [], []⟩ (by decide) (by decide)

/-- C7 (amended): when the identity is already pending (and has an alias), a
validation request changes nothing and sends no notification, but an
activation request — while also leaving the store unchanged — re-sends the
operator notification on every call: the notification is not limited to the
unknown-to-pending transition on the activation path (see the
counterexample). -/
theorem notify_behavior_when_pending
    (gen : Nat → String) (fuel now : Nat) (key : KeyConfig) (sign b64 : String → String)
    (raw : String) (c : Conn) (sid : String)
    (hup : c.up = true)
    (hna : canonId raw ∉ c.authorized.map (·.hwid))
    (hp : canonId raw ∈ c.pending)
    (hsid : lookupShortByHwid c.mapping (canonId raw) = some sid) :
    validate gen fuel now raw c = some ⟨.no, c, false⟩ ∧
    activate gen fuel now key sign b64 raw c = some ⟨.notApproved, c, true⟩ := by
  have hmem : canonId raw ∉ db_get_authorized c := by
    unfold db_get_authorized
    rw [hup]
    simpa using hna
  have hpen : canonId raw ∈ db_get_pending c := by
    unfold db_get_pending
    rw [hup]
    simpa using hp
  constructor
  · unfold validate
    dsimp only
    rw [if_neg hmem, if_pos hpen]
  · unfold activate
    dsimp only
    rw [if_neg hmem, if_pos hpen]
    have hgc : get_or_create_short_id gen fuel (canonId raw) c = some (sid, c) := by
      unfold get_or_create_short_id
      rw [if_pos hup, hsid]
    rw [hgc]

/-- Witness for C7's amended theorem: the pending identity "H1" with alias
"S1". -/
theorem notify_behavior_when_pending_witness :
    validate (fun _ => "S9") 1 5 "H1" ⟨true, [], ["H1"], [("S1", "H1")]⟩
      = some ⟨.no, ⟨true, [], ["H1"], [("S1", "H1")]⟩, false⟩ ∧
    activate (fun _ => "S9") 1 5 .valid id id "H1" ⟨true, [], ["H1"], [("S1", "H1")]⟩
      = some ⟨.notApproved, ⟨true, [], ["H1"], [("S1", "H1")]⟩, true⟩ :=
  notify_behavior_when_pending (fun _ => "S9") 1 5 .valid id id "H1"
    ⟨true, [], ["H1"], [("S1", "H1")]⟩ "S1" (by decide) (by decide) (by decide) (by decide)

end ASL
